import Mathlib

/-!
Verification of the device-orchestration layer of an MCP Android-emulator
server.  The TypeScript sources (`AndroidManager.ts`, `InteractionManager`)
are shallowly embedded below: JavaScript strings are modelled as `List Char`
(wrapped in `String` at the interface), `String.prototype.split`,
`includes`, `trim`, `replace` and regex matching are modelled by executable
Lean functions with JavaScript semantics, and every external `adb` /
`avdmanager` / `sdkmanager` invocation is modelled by an `Except`-valued
result supplied by an environment, together with an explicit trace of the
commands issued.
-/

namespace AndroidMcp

/-- JavaScript strings are sequences of characters. -/
abbrev JStr := List Char

/-- `isPre p l` is true when `p` is a leading segment of `l`. -/
def isPre : JStr → JStr → Bool
  | [], _ => true
  | a :: as, l =>
    match l with
    | [] => false
    | b :: bs => a == b && isPre as bs

/-- Find the first occurrence of `sep` in a character list; return the part
before it and the part after it.  `none` when `sep` does not occur.
(`sep` is assumed non-empty everywhere it is used, matching the literal
separators of the source.) -/
def breakOn (sep : JStr) : JStr → Option (JStr × JStr)
  | [] => none
  | c :: cs =>
    if isPre sep (c :: cs) then some ([], (c :: cs).drop sep.length)
    else
      match breakOn sep cs with
      | some (p, r) => some (c :: p, r)
      | none => none

/-- Model of JavaScript `haystack.includes(needle)` for non-empty `needle`. -/
def jsContainsChars (needle haystack : JStr) : Bool := (breakOn needle haystack).isSome

/-- Fuel-driven worker for `jsSplit`; the fuel is always sufficient at the
call site in `jsSplit`. -/
def splitFuel (sep : JStr) : Nat → JStr → List JStr
  | 0, l => [l]
  | f + 1, l =>
    match breakOn sep l with
    | none => [l]
    | some (p, r) => p :: splitFuel sep f r

/-- Model of JavaScript `s.split(sep)` for a non-empty literal `sep`:
the list of segments between consecutive occurrences of `sep`. -/
def jsSplit (sep l : JStr) : List JStr := splitFuel sep (l.length + 1) l

/-- Model of JavaScript `s.trim()`: strip whitespace from both ends. -/
def jsTrimChars (l : JStr) : JStr :=
  ((l.dropWhile Char.isWhitespace).reverse.dropWhile Char.isWhitespace).reverse

/-- Model of JavaScript `s.replace(c, '')` with a single-character pattern:
remove the first occurrence of `c`, if any. -/
def jsReplaceFirstChars (c : Char) (l : JStr) : JStr :=
  match breakOn [c] l with
  | none => l
  | some (p, r) => p ++ r

/-- `String`-level wrapper for `jsSplit`. -/
def jsSplitStr (sep s : String) : List String := (jsSplit sep.data s.data).map String.mk

/-- `String`-level wrapper for `includes`: `jsContainsStr s sub` models
`s.includes(sub)`. -/
def jsContainsStr (s sub : String) : Bool := jsContainsChars sub.data s.data

/-- `String`-level wrapper for `trim`. -/
def jsTrimStr (s : String) : String := String.mk (jsTrimChars s.data)

/-- `String`-level wrapper for single-character `replace`. -/
def jsReplaceFirstStr (c : Char) (s : String) : String :=
  String.mk (jsReplaceFirstChars c s.data)

/-! ### Properties of the string kit -/

theorem isPre_append_self (p b : JStr) : isPre p (p ++ b) = true := by
  induction p with
  | nil => rfl
  | cons a p ih => simp [isPre, ih]

theorem eq_append_of_isPre :
    ∀ (p l : JStr), isPre p l = true → l = p ++ l.drop p.length := by
  intro p
  induction p with
  | nil => intro l _; simp
  | cons a p ih =>
    intro l h
    cases l with
    | nil => simp [isPre] at h
    | cons x xs =>
      simp [isPre] at h
      obtain ⟨h1, h2⟩ := h
      simpa [h1] using ih xs h2

theorem not_isPre_cons {sep : JStr} {c x : Char} (hsep : sep.head? = some c)
    (hne : c ≠ x) (t : JStr) : isPre sep (x :: t) = false := by
  cases sep with
  | nil => simp at hsep
  | cons s ss =>
    simp at hsep
    subst hsep
    simp [isPre, hne]

theorem isPre_of_isPre_append :
    ∀ (p u v : JStr), isPre p (u ++ v) = true → p.length ≤ u.length →
      isPre p u = true := by
  intro p
  induction p with
  | nil => intro u v _ _; rfl
  | cons a p ih =>
    intro u v h hlen
    cases u with
    | nil => simp at hlen
    | cons y u' =>
      simp [isPre] at h ⊢
      exact ⟨h.1, ih u' v h.2 (by simpa using hlen)⟩

theorem mem_of_isPre_append_gt :
    ∀ (p u : JStr) (d : Char) (v : JStr), isPre p (u ++ d :: v) = true →
      u.length < p.length → d ∈ p := by
  intro p
  induction p with
  | nil => intro u d v _ h; simp at h
  | cons a p ih =>
    intro u d v h hlen
    cases u with
    | nil =>
      simp [isPre] at h
      simp [h.1]
    | cons y u' =>
      simp [isPre] at h
      exact List.mem_cons_of_mem _ (ih u' d v h.2 (by simpa using hlen))

theorem breakOn_sound {sep : JStr} :
    ∀ {l p r : JStr}, breakOn sep l = some (p, r) → l = p ++ sep ++ r := by
  intro l
  induction l with
  | nil => intro p r h; simp [breakOn] at h
  | cons c cs ih =>
    intro p r h
    cases hpre : isPre sep (c :: cs) with
    | true =>
      rw [breakOn, if_pos hpre] at h
      simp only [Option.some.injEq, Prod.mk.injEq] at h
      obtain ⟨hp, hr⟩ := h
      subst hp
      subst hr
      simpa using eq_append_of_isPre sep (c :: cs) hpre
    | false =>
      rw [breakOn, if_neg (by simp [hpre])] at h
      cases hcs : breakOn sep cs with
      | none => rw [hcs] at h; exact absurd h (by simp)
      | some pr =>
        obtain ⟨p', r'⟩ := pr
        rw [hcs] at h
        simp only [Option.some.injEq, Prod.mk.injEq] at h
        obtain ⟨hp, hr⟩ := h
        subst hp
        subst hr
        simpa using ih hcs

theorem breakOn_cons_none_inv {sep : JStr} {x : Char} {xs : JStr}
    (h : breakOn sep (x :: xs) = none) :
    isPre sep (x :: xs) = false ∧ breakOn sep xs = none := by
  cases hpre : isPre sep (x :: xs) with
  | true =>
    rw [breakOn, if_pos hpre] at h
    exact absurd h (by simp)
  | false =>
    refine ⟨rfl, ?_⟩
    rw [breakOn, if_neg (by simp [hpre])] at h
    cases hcs : breakOn sep xs with
    | none => rfl
    | some pr =>
      obtain ⟨p', r'⟩ := pr
      rw [hcs] at h
      exact absurd h (by simp)

theorem breakOn_append_of_head {sep : JStr} {c : Char} (hsep : sep.head? = some c) :
    ∀ (a b : JStr), c ∉ a → breakOn sep (a ++ sep ++ b) = some (a, b) := by
  intro a
  induction a with
  | nil =>
    intro b _
    cases sep with
    | nil => simp at hsep
    | cons s ss =>
      show breakOn (s :: ss) (s :: (ss ++ b)) = some ([], b)
      rw [breakOn, if_pos (by simpa using isPre_append_self (s :: ss) b)]
      simpa using List.drop_left (s :: ss) b
  | cons x a' ih =>
    intro b hc
    have hxc : c ≠ x := fun h => hc (h ▸ List.mem_cons_self x a')
    have hc' : c ∉ a' := fun h => hc (List.mem_cons_of_mem _ h)
    show breakOn sep (x :: (a' ++ sep ++ b)) = some (x :: a', b)
    rw [breakOn, if_neg (by simp [not_isPre_cons hsep hxc])]
    rw [ih b hc']

theorem breakOn_append_none {sep : JStr} {c : Char} (hsep : sep.head? = some c) :
    ∀ (a b : JStr), c ∉ a → breakOn sep b = none → breakOn sep (a ++ b) = none := by
  intro a
  induction a with
  | nil => intro b _ hb; simpa using hb
  | cons x a' ih =>
    intro b hc hb
    have hxc : c ≠ x := fun h => hc (h ▸ List.mem_cons_self x a')
    have hc' : c ∉ a' := fun h => hc (List.mem_cons_of_mem _ h)
    show breakOn sep (x :: (a' ++ b)) = none
    rw [breakOn, if_neg (by simp [not_isPre_cons hsep hxc])]
    rw [ih b hc' hb]

theorem breakOn_append_none_barrier {sep : JStr} {d : Char} {b : JStr}
    (hd : b.head? = some d) (hnd : d ∉ sep) :
    ∀ a : JStr, breakOn sep a = none → breakOn sep b = none →
      breakOn sep (a ++ b) = none := by
  intro a
  induction a with
  | nil => intro _ hb; simpa using hb
  | cons x a' ih =>
    intro ha hb
    obtain ⟨hpre, ha'⟩ := breakOn_cons_none_inv ha
    show breakOn sep (x :: (a' ++ b)) = none
    obtain ⟨b0, bs, rfl⟩ : ∃ b0 bs, b = b0 :: bs := by
      cases b with
      | nil => simp at hd
      | cons b0 bs => exact ⟨b0, bs, rfl⟩
    have hd' : b0 = d := by simpa using hd
    have hnd' : b0 ∉ sep := by rw [hd']; exact hnd
    rw [breakOn, if_neg ?hno]
    case hno =>
      intro hyes
      have hyes' : isPre sep ((x :: a') ++ b0 :: bs) = true := by simpa using hyes
      rcases le_or_lt sep.length (x :: a').length with hle | hgt
      · have : isPre sep (x :: a') = true :=
          isPre_of_isPre_append sep (x :: a') (b0 :: bs) hyes' hle
        rw [this] at hpre
        exact absurd hpre (by simp)
      · exact hnd' (mem_of_isPre_append_gt sep (x :: a') b0 bs hyes' hgt)
    rw [ih ha' hb]

/-- A single-character separator never occurs in a list not containing it. -/
theorem breakOn_single_none {c : Char} {l : JStr} (hc : c ∉ l) : breakOn [c] l = none := by
  have := @breakOn_append_none [c] c rfl l [] hc rfl
  simpa using this

theorem splitFuel_ne_nil {sep : JStr} : ∀ (f : Nat) (l : JStr), splitFuel sep f l ≠ [] := by
  intro f l
  cases f with
  | zero => simp [splitFuel]
  | succ f =>
    rw [splitFuel]
    cases breakOn sep l with
    | none => simp
    | some pr => simp

theorem jsSplit_ne_nil {sep l : JStr} : jsSplit sep l ≠ [] := splitFuel_ne_nil _ _

theorem breakOn_length {sep l p r : JStr} (hsep : sep ≠ [])
    (h : breakOn sep l = some (p, r)) :
    l.length = p.length + sep.length + r.length ∧ r.length < l.length := by
  have hl : l = p ++ sep ++ r := breakOn_sound h
  have hseplen : 1 ≤ sep.length := by
    cases sep with
    | nil => exact absurd rfl hsep
    | cons s ss => simp
  constructor
  · rw [hl]; simp [List.length_append]; omega
  · rw [hl]; simp [List.length_append]; omega

theorem splitFuel_congr {sep : JStr} (hsep : sep ≠ []) :
    ∀ (f : Nat) (l : JStr) (g : Nat), l.length < f → l.length < g →
      splitFuel sep f l = splitFuel sep g l := by
  intro f
  induction f with
  | zero => intro l g hf _; omega
  | succ f ih =>
    intro l g hf hg
    cases g with
    | zero => omega
    | succ g =>
      cases hbr : breakOn sep l with
      | none => simp only [splitFuel, hbr]
      | some pr =>
        obtain ⟨p, r⟩ := pr
        obtain ⟨hlen, hr⟩ := breakOn_length hsep hbr
        simp only [splitFuel, hbr]
        rw [ih r g (by omega) (by omega)]

theorem jsSplit_cons {sep l p r : JStr} (hsep : sep ≠ [])
    (h : breakOn sep l = some (p, r)) : jsSplit sep l = p :: jsSplit sep r := by
  obtain ⟨hlen, hr⟩ := breakOn_length hsep h
  show splitFuel sep (l.length + 1) l = p :: jsSplit sep r
  simp only [splitFuel, h]
  rw [splitFuel_congr hsep l.length r (r.length + 1) hr (by omega)]
  rfl

theorem jsSplit_single {sep l : JStr} (h : breakOn sep l = none) : jsSplit sep l = [l] := by
  show splitFuel sep (l.length + 1) l = [l]
  simp only [splitFuel, h]

/-! ### Data model (from `src/android/types.ts`) -/

/-- A configured virtual device, from `EmulatorDevice` in `types.ts`. -/
structure EmulatorDevice where
  name : String
  target : String
  sdk : String
  abi : String
deriving DecidableEq, Repr

/-- A running emulator entry, as pushed by `getRunningEmulators`. -/
structure RunningEmulator where
  name : String
  port : String
deriving DecidableEq, Repr

/-- Device properties, from `EmulatorInfo` in `types.ts`. -/
structure EmulatorInfo where
  port : String
  build_version : String
  api_level : String
  device_name : String
  manufacturer : String
  architecture : String
deriving DecidableEq, Repr

/-- An SDK package row, from `SDKPackage` in `types.ts`. -/
structure SDKPackage where
  path : String
  version : String
  description : String
  installed : Bool
deriving DecidableEq, Repr

/-- The two package sections, from `SDKList` in `types.ts`. -/
structure SDKList where
  installed : List SDKPackage
  available : List SDKPackage
deriving DecidableEq, Repr

/-- Arguments of `startEmulator`, from `StartEmulatorArgs` in `types.ts`;
optional fields are `Option`s. -/
structure StartEmulatorArgs where
  avd_name : String
  cold_boot : Option Bool
  wipe_data : Option Bool
  gpu : Option String
  port : Option Nat
deriving DecidableEq, Repr

/-- Screen geometry, from `ScreenSize` in the interaction types. -/
structure ScreenSize where
  width : Nat
  height : Nat
  scale : Nat
deriving DecidableEq, Repr

/-- The `adb`/device commands the orchestration layer can issue; traces of
these model the order of external invocations. -/
inductive AdbCommand where
  | adbDevices
  | pmListPackages (port pkg : String)
  | resolveActivity (port pkg : String)
  | amStart (port activity : String)
  | wmSize (port : String)
  | inputSwipe (port : String) (x0 y0 x1 y1 durationMs : Nat)
deriving DecidableEq, Repr

/-! ### `startEmulator` argument construction (`AndroidManager.startEmulator`) -/

/-- The `emulatorArgs` array built by `startEmulator`.  JavaScript
truthiness is modelled exactly: a destructured `cold_boot = false` default,
and `gpu ? …` / `port ? …` conditional spreads, which treat the empty
string and the number `0` as falsy. -/
def emulatorArgs (args : StartEmulatorArgs) : List String :=
  ["-avd", args.avd_name]
    ++ (if args.cold_boot.getD false then ["-no-snapshot-load"] else [])
    ++ (if args.wipe_data.getD false then ["-wipe-data"] else [])
    ++ (match args.gpu with
        | some g => if g = "" then [] else ["-gpu", g]
        | none => [])
    ++ (match args.port with
        | some n => if n = 0 then [] else ["-port", toString n]
        | none => [])

/-! ### Block parser for `avdmanager list avd` (`AndroidManager.getEmulators`) -/

/-- Parse one `Name: `-delimited block of `avdmanager list avd` output.
`lines[0].trim()` is an unguarded JavaScript access: the `Except` error
marks the only place the loop body could throw (it never does, because a
split is never empty — see `parsers_are_total`).  The `Target:`/`ABI:`
fields use guarded access chains ending in `|| 'Unknown'`. -/
def parseAvdBlock (block : String) : Except String EmulatorDevice :=
  let lines := jsSplitStr "\n" block
  match lines.head? with
  | none => .error "TypeError: lines[0] is undefined"
  | some l0 =>
    let name := jsTrimStr l0
    let target :=
      match lines.find? (fun l => jsContainsStr l "Target:") with
      | none => "Unknown"
      | some l =>
        match (jsSplitStr "Target: " l).get? 1 with
        | none => "Unknown"
        | some t => if jsTrimStr t = "" then "Unknown" else jsTrimStr t
    let abi :=
      match lines.find? (fun l => jsContainsStr l "ABI:") with
      | none => "Unknown"
      | some l =>
        match (jsSplitStr "ABI: " l).get? 1 with
        | none => "Unknown"
        | some t => if jsTrimStr t = "" then "Unknown" else jsTrimStr t
    .ok { name := name, target := target, sdk := target, abi := abi }

/-- The parsing loop of `getEmulators`: split the tool output on
`'Name: '`, drop the text before the first marker, and parse each block. -/
def getEmulatorsParse (stdout : String) : Except String (List EmulatorDevice) :=
  ((jsSplitStr "Name: " stdout).drop 1).mapM parseAvdBlock

/-- `getEmulators`: the `avdmanager list avd` invocation result is the
argument; any failure (of the tool or of the body) is caught and an empty
list returned. -/
def getEmulators (res : Except String String) : List EmulatorDevice :=
  match res with
  | .error _ => []
  | .ok out =>
    match getEmulatorsParse out with
    | .error _ => []
    | .ok l => l

/-! ### Running-device parser (`getRunningEmulators`) -/

/-- The per-line body of the `getRunningEmulators` loop. -/
def parseRunningLine (line : String) : Option RunningEmulator :=
  if jsContainsStr line "emulator-" && jsContainsStr line "device" then
    match (jsSplitStr "emulator-" line).get? 1 with
    | none => none
    | some t =>
      let port := (jsSplitStr "\t" t).headD ""
      if port = "" then none else some { name := "emulator-" ++ port, port := port }
  else none

/-- Parse `adb devices` output: drop the header line, keep lines with an
emulator marker and a `device` state, extract the port token. -/
def getRunningEmulatorsParse (stdout : String) : List RunningEmulator :=
  ((jsSplitStr "\n" stdout).drop 1).filterMap parseRunningLine

/-- `getRunningEmulators`: an `adb devices` failure is caught and an empty
list returned. -/
def getRunningEmulators (res : Except String String) : List RunningEmulator :=
  match res with
  | .error _ => []
  | .ok out => getRunningEmulatorsParse out

/-! ### Property extraction (`extractProperty`, `getEmulatorInfo`) -/

/-- `extractProperty(lines, property)`: find the first line containing
`[property]`, take the text after `']: ['`, strip the first `']'`, default
to `"Unknown"` at every guarded step. -/
def extractProperty (lines : List String) (property : String) : String :=
  match lines.find? (fun l => jsContainsStr l ("[" ++ property ++ "]")) with
  | none => "Unknown"
  | some line =>
    match (jsSplitStr "]: [" line).get? 1 with
    | none => "Unknown"
    | some v =>
      if jsReplaceFirstStr ']' v = "" then "Unknown" else jsReplaceFirstStr ']' v

/-- `getEmulatorInfo(port)`: the `adb shell getprop` result is the second
argument; on success the five properties are extracted independently. -/
def getEmulatorInfo (port : String) (res : Except String String) :
    Except String EmulatorInfo :=
  match res with
  | .error m => .error ("Failed to get emulator info: " ++ m)
  | .ok stdout =>
    let lines := jsSplitStr "\n" stdout
    .ok
      { port := port
        build_version := extractProperty lines "ro.build.version.release"
        api_level := extractProperty lines "ro.build.version.sdk"
        device_name := extractProperty lines "ro.product.model"
        manufacturer := extractProperty lines "ro.product.manufacturer"
        architecture := extractProperty lines "ro.product.cpu.abi" }

/-! ### Table parser for `sdkmanager --list` (`getSDKList`) -/

/-- `line.trim().split('|').map(s => s.trim()).filter(Boolean)`. -/
def sdkLineParts (line : String) : List String :=
  (((jsSplitStr "|" (jsTrimStr line)).map jsTrimStr).filter (fun s => s ≠ ""))

/-- One iteration of the `getSDKList` line loop.  The `Bool` component is
`currentSection === 'available'`. -/
def sdkStep (acc : Bool × SDKList) (line : String) : Bool × SDKList :=
  if jsContainsStr line "Available Packages:" then (true, acc.2)
  else if jsTrimStr line = "" || jsContainsStr line "---" || jsContainsStr line "Path |" then acc
  else
    match sdkLineParts line with
    | p0 :: p1 :: rest =>
      if acc.1 then
        (acc.1, { acc.2 with available := acc.2.available ++ [⟨p0, p1, rest.headD "", false⟩] })
      else
        (acc.1, { acc.2 with installed := acc.2.installed ++ [⟨p0, p1, rest.headD "", true⟩] })
    | _ => acc

/-- The parsing loop of `getSDKList` over the lines of the tool output. -/
def getSDKListParse (stdout : String) : SDKList :=
  ((jsSplitStr "\n" stdout).foldl sdkStep (false, ⟨[], []⟩)).2

/-! ### `launchApp` workflow (`AndroidManager.launchApp`, identical in
`InteractionManager.launchApp`) -/

/-- Results of the four external commands `launchApp` can issue, in
program order. -/
structure LaunchEnv where
  devicesRes : Except String String
  pmRes : Except String String
  resolveRes : Except String String
  startRes : Except String String
deriving Repr

/-- `launchApp({port, package_name})`: four steps with fail-fast checks.
The first component is the settled promise (the outer `catch` wraps every
thrown message in `Failed to launch app: `); the second is the trace of
issued commands in order. -/
def launchApp (env : LaunchEnv) (port package_name : String) :
    Except String String × List AdbCommand :=
  let running := getRunningEmulators env.devicesRes
  if ¬ (running.any (fun emu => emu.port == port)) then
    (.error ("Failed to launch app: No emulator running on port " ++ port),
     [.adbDevices])
  else
    match env.pmRes with
    | .error m =>
      (.error ("Failed to launch app: " ++ m),
       [.adbDevices, .pmListPackages port package_name])
    | .ok packages =>
      if ¬ (jsContainsStr packages package_name = true) then
        (.error ("Failed to launch app: Package " ++ package_name ++
          " not found on emulator-" ++ port),
         [.adbDevices, .pmListPackages port package_name])
      else
        match env.resolveRes with
        | .error m =>
          (.error ("Failed to launch app: " ++ m),
           [.adbDevices, .pmListPackages port package_name,
            .resolveActivity port package_name])
        | .ok activities =>
          let activity := jsTrimStr activities
          if activity = "" then
            (.error ("Failed to launch app: Could not find main activity for package " ++
              package_name),
             [.adbDevices, .pmListPackages port package_name,
              .resolveActivity port package_name])
          else
            match env.startRes with
            | .error m =>
              (.error ("Failed to launch app: " ++ m),
               [.adbDevices, .pmListPackages port package_name,
                .resolveActivity port package_name, .amStart port activity])
            | .ok _ =>
              (.ok ("Successfully launched " ++ package_name ++ " on emulator-" ++ port),
               [.adbDevices, .pmListPackages port package_name,
                .resolveActivity port package_name, .amStart port activity])

/-! ### Screen geometry and swipe (`InteractionManager`) -/

/-- `parseInt` on a run of decimal digits. -/
def digitsVal (ds : JStr) : Nat := ds.foldl (fun n c => n * 10 + (c.toNat - 48)) 0

/-- Try to match the regex `Physical size:\s*(\d+)x(\d+)` at the start of
the text; on success return the two captured numbers. -/
def matchPhysAt (l : JStr) : Option (Nat × Nat) :=
  if isPre ("Physical size:".data) l then
    let rest := (l.drop ("Physical size:".data).length).dropWhile Char.isWhitespace
    let d1 := rest.takeWhile Char.isDigit
    let rest2 := rest.dropWhile Char.isDigit
    if d1 = [] then none
    else
      match rest2 with
      | 'x' :: rest3 =>
        let d2 := rest3.takeWhile Char.isDigit
        if d2 = [] then none else some (digitsVal d1, digitsVal d2)
      | _ => none
  else none

/-- `stdout.match(/Physical size:\s*(\d+)x(\d+)/)`: the leftmost position
where the whole pattern matches (the pattern is deterministic, so no other
backtracking arises). -/
def searchPhys : JStr → Option (Nat × Nat)
  | [] => none
  | c :: cs =>
    match matchPhysAt (c :: cs) with
    | some r => some r
    | none => searchPhys cs

/-- `getScreenSize(port)`: the `adb shell wm size` result is the argument.
There is no `try`/`catch` here: an execution failure propagates unwrapped,
and an unmatched pattern throws `Failed to get screen size`.  The scale
factor is the constant `1`. -/
def getScreenSize (res : Except String String) : Except String ScreenSize :=
  match res with
  | .error m => .error m
  | .ok stdout =>
    match searchPhys stdout.data with
    | some (w, h) => .ok { width := w, height := h, scale := 1 }
    | none => .error "Failed to get screen size"

/-- Results of the two external commands `swipe` can issue. -/
structure SwipeEnv where
  wmRes : Except String String
  swipeRes : Except String String
deriving Repr

/-- `swipe(port, direction)`: query the geometry, compute the gesture
coordinates by direction, then issue one `input swipe` command.  The
four `Math.floor(dim * 0.8)` / `Math.floor(dim * 0.2)` expressions are
modelled as `dim * 8 / 10` and `dim * 2 / 10` in `Nat` (exact for actual
screen dimensions, where the double product rounds to the same integer),
and `width >> 1` as division by two.  The direction `switch` happens
before the `try`, so its error is not wrapped; the inner command failure
is wrapped in `Failed to swipe emulator: `. -/
def swipe (env : SwipeEnv) (port direction : String) :
    Except String String × List AdbCommand :=
  match getScreenSize env.wmRes with
  | .error m => (.error m, [.wmSize port])
  | .ok sz =>
    let centerX := sz.width / 2
    let centerY := sz.height / 2
    let coords : Option (Nat × Nat × Nat × Nat) :=
      if direction = "up" then some (centerX, sz.height * 8 / 10, centerX, sz.height * 2 / 10)
      else if direction = "down" then
        some (centerX, sz.height * 2 / 10, centerX, sz.height * 8 / 10)
      else if direction = "left" then
        some (sz.width * 8 / 10, centerY, sz.width * 2 / 10, centerY)
      else if direction = "right" then
        some (sz.width * 2 / 10, centerY, sz.width * 8 / 10, centerY)
      else none
    match coords with
    | none =>
      (.error ("Swipe direction \"" ++ direction ++ "\" is not supported"), [.wmSize port])
    | some (x0, y0, x1, y1) =>
      match env.swipeRes with
      | .error m =>
        (.error ("Failed to swipe emulator: " ++ m),
         [.wmSize port, .inputSwipe port x0 y0 x1 y1 200])
      | .ok _ =>
        (.ok ("Emulator on port " ++ port ++ " has been swiped."),
         [.wmSize port, .inputSwipe port x0 y0 x1 y1 200])

/-! ### Shared helper lemmas -/

theorem jsSplitStr_ne_nil (sep s : String) : jsSplitStr sep s ≠ [] := by
  unfold jsSplitStr
  intro h
  exact jsSplit_ne_nil (List.map_eq_nil_iff.mp h)

theorem parseAvdBlock_ok (block : String) : ∃ d, parseAvdBlock block = .ok d := by
  obtain ⟨x, xs, hx⟩ : ∃ x xs, jsSplitStr "\n" block = x :: xs := by
    cases h : jsSplitStr "\n" block with
    | nil => exact absurd h (jsSplitStr_ne_nil "\n" block)
    | cons x xs => exact ⟨x, xs, rfl⟩
  cases hp : parseAvdBlock block with
  | ok d => exact ⟨d, rfl⟩
  | error e =>
    simp only [parseAvdBlock, hx, List.head?] at hp
    exact Except.noConfusion hp

theorem mapM_parseAvdBlock_ok (L : List String) :
    ∃ l, L.mapM parseAvdBlock = .ok l ∧ l.length = L.length := by
  induction L with
  | nil => exact ⟨[], rfl, rfl⟩
  | cons b bs ih =>
    obtain ⟨d, hd⟩ := parseAvdBlock_ok b
    obtain ⟨l, hl, hlen⟩ := ih
    refine ⟨d :: l, ?_, by simp [hlen]⟩
    rw [List.mapM_cons, hd, hl]
    rfl

theorem getEmulatorsParse_ok (s : String) :
    ∃ l, getEmulatorsParse s = .ok l ∧ l.length = ((jsSplitStr "Name: " s).drop 1).length :=
  mapM_parseAvdBlock_ok _

/-! ## Claims -/

/-- Claim C7: a failing configured-device listing invocation (and a failing
running-device listing invocation) yields an empty collection instead of
propagating the error. -/
theorem listing_failure_yields_empty (m : String) :
    getEmulators (.error m) = [] ∧ getRunningEmulators (.error m) = [] :=
  ⟨rfl, rfl⟩

/-- Claim C10: the screen-geometry extraction is not total — when the
`wm size` output has no substring matching `Physical size: <digits>x<digits>`
(i.e. the regex search fails), `getScreenSize` throws
`Failed to get screen size` and `swipe` propagates that error; when the
pattern does match, the returned scale factor is exactly `1`. -/
theorem getScreenSize_spec (s : String) (env : SwipeEnv) (port direction : String) :
    (searchPhys s.data = none →
      getScreenSize (.ok s) = .error "Failed to get screen size" ∧
      (env.wmRes = .ok s → (swipe env port direction).1 = .error "Failed to get screen size")) ∧
    (∀ w h, searchPhys s.data = some (w, h) →
      getScreenSize (.ok s) = .ok { width := w, height := h, scale := 1 }) := by
  constructor
  · intro hnone
    have hgs : getScreenSize (.ok s) = .error "Failed to get screen size" := by
      simp only [getScreenSize, hnone]
    refine ⟨hgs, ?_⟩
    intro hwm
    simp only [swipe, hwm, hgs]
  · intro w h hsome
    simp only [getScreenSize, hsome]

/-- Claim C10 witness: a concrete non-matching output and a concrete
matching output. -/
theorem getScreenSize_spec_witness :
    getScreenSize (.ok "junk") = .error "Failed to get screen size" ∧
    (swipe ⟨.ok "junk", .ok ""⟩ "5554" "up").1 = .error "Failed to get screen size" ∧
    getScreenSize (.ok "Physical size: 1080x2400") = .ok { width := 1080, height := 2400, scale := 1 } := by
  have h := (getScreenSize_spec "junk" ⟨.ok "junk", .ok ""⟩ "5554" "up").1 rfl
  exact ⟨h.1, h.2 rfl, (getScreenSize_spec "Physical size: 1080x2400" ⟨.ok "", .ok ""⟩ "" "").2
    1080 2400 rfl⟩

/-- Claim C3: on a device reporting `Physical size: 1080x2400`,
`swipe(port, "up")` issues exactly one input-swipe command, from
`(540, 1920)` to `(540, 480)` — x at the horizontal center
`1080 >> 1 = 540`, y from 80% to 20% of the height. -/
theorem swipe_up_coordinates (port : String) (sres : Except String String) :
    (swipe ⟨.ok "Physical size: 1080x2400", sres⟩ port "up").2 =
      [.wmSize port, .inputSwipe port 540 1920 540 480 200] := by
  cases sres with
  | error m => rfl
  | ok o => rfl

/-- Claim C2 counterexample: `swipe(port, "diagonal")` does fail with the
unsupported-direction error, but it is false that no device command is
issued: the screen-geometry query command was already issued before the
direction check. -/
theorem swipe_diagonal_issues_geometry_query :
    (swipe ⟨.ok "Physical size: 1080x2400", .ok ""⟩ "5554" "diagonal").1 =
      .error "Swipe direction \"diagonal\" is not supported" ∧
    (swipe ⟨.ok "Physical size: 1080x2400", .ok ""⟩ "5554" "diagonal").2 =
      [.wmSize "5554"] ∧
    [AdbCommand.wmSize "5554"] ≠ ([] : List AdbCommand) :=
  ⟨rfl, rfl, by decide⟩

/-- Claim C2 (amended): for every direction outside {up, down, left,
right}, `swipe` issues no input-swipe command — only the screen-geometry
query, which precedes the direction check — and, whenever that geometry
query succeeds and parses, it fails with the unsupported-direction
error. -/
theorem swipe_unsupported_direction (env : SwipeEnv) (port direction : String)
    (h1 : direction ≠ "up") (h2 : direction ≠ "down") (h3 : direction ≠ "left")
    (h4 : direction ≠ "right") :
    (swipe env port direction).2 = [.wmSize port] ∧
    (∀ out, env.wmRes = .ok out → searchPhys out.data ≠ none →
      (swipe env port direction).1 =
        .error ("Swipe direction \"" ++ direction ++ "\" is not supported")) := by
  cases hg : getScreenSize env.wmRes with
  | error m =>
    constructor
    · simp only [swipe, hg]
    · intro out hout hne
      rw [hout] at hg
      cases hs : searchPhys out.data with
      | none => exact absurd hs hne
      | some wh =>
        obtain ⟨w, h⟩ := wh
        simp only [getScreenSize, hs] at hg
        exact Except.noConfusion hg
  | ok sz =>
    have hswipe : swipe env port direction =
        (.error ("Swipe direction \"" ++ direction ++ "\" is not supported"),
         [.wmSize port]) := by
      simp only [swipe, hg]
      simp [h1, h2, h3, h4]
    rw [hswipe]
    exact ⟨rfl, fun _ _ _ => rfl⟩

/-- Claim C2 (amended) witness: the "diagonal" direction on a device with a
parsing geometry answer. -/
theorem swipe_unsupported_direction_witness :
    (swipe ⟨.ok "Physical size: 1080x2400", .ok ""⟩ "5554" "diagonal").2 =
      [.wmSize "5554"] ∧
    (swipe ⟨.ok "Physical size: 1080x2400", .ok ""⟩ "5554" "diagonal").1 =
      .error ("Swipe direction \"" ++ "diagonal" ++ "\" is not supported") := by
  have h := swipe_unsupported_direction ⟨.ok "Physical size: 1080x2400", .ok ""⟩ "5554"
    "diagonal" (by decide) (by decide) (by decide) (by decide)
  exact ⟨h.1, h.2 "Physical size: 1080x2400" rfl (by decide)⟩

/-- Claim C9 counterexample: two blocks carrying the same name `A` do not
collapse — the parser returns two records sharing the name, so the
returned names are not pairwise distinct. -/
theorem duplicate_names_not_collapsed :
    getEmulatorsParse "Name: A\n    Target: T1\n    ABI: X\nName: A\n    Target: T2\n    ABI: Y" =
      .ok [⟨"A", "T1", "T1", "X"⟩, ⟨"A", "T2", "T2", "Y"⟩] ∧
    ¬ List.Pairwise (fun a b : EmulatorDevice => a.name ≠ b.name)
      [⟨"A", "T1", "T1", "X"⟩, ⟨"A", "T2", "T2", "Y"⟩] :=
  ⟨rfl, by decide⟩

/-- Claim C9 (amended): the block parser performs no deduplication at all:
it returns exactly one record per `Name: `-delimited block, in block order,
so blocks with equal names yield that many records with that name. -/
theorem one_record_per_block (s : String) :
    ∃ l, getEmulatorsParse s = .ok l ∧
      l.length = ((jsSplitStr "Name: " s).drop 1).length :=
  getEmulatorsParse_ok s

/-- Claim C1: `launchApp` runs its four steps strictly in order and stops
at the first failing check: a port absent from the running set fails with
the `not running` step error and issues no further command; a missing
package issues no resolve-activity or start command; the result is a
success iff all four checks pass, in which case the four commands were
issued in order. -/
theorem launchApp_fail_fast (env : LaunchEnv) (port pkg : String) :
    ((getRunningEmulators env.devicesRes).any (fun emu => emu.port == port) = false →
      launchApp env port pkg =
        (.error ("Failed to launch app: No emulator running on port " ++ port),
         [.adbDevices])) ∧
    (∀ packages, env.pmRes = .ok packages →
      (getRunningEmulators env.devicesRes).any (fun emu => emu.port == port) = true →
      jsContainsStr packages pkg = false →
      launchApp env port pkg =
        (.error ("Failed to launch app: Package " ++ pkg ++ " not found on emulator-" ++ port),
         [.adbDevices, .pmListPackages port pkg])) ∧
    ((∃ res, (launchApp env port pkg).1 = .ok res) ↔
      ((getRunningEmulators env.devicesRes).any (fun emu => emu.port == port) = true ∧
       (∃ packages, env.pmRes = .ok packages ∧ jsContainsStr packages pkg = true) ∧
       (∃ activities, env.resolveRes = .ok activities ∧ jsTrimStr activities ≠ "") ∧
       (∃ r, env.startRes = .ok r))) ∧
    (∀ res, (launchApp env port pkg).1 = .ok res →
      ∃ activity, (launchApp env port pkg).2 =
        [.adbDevices, .pmListPackages port pkg, .resolveActivity port pkg,
         .amStart port activity]) := by
  cases hany : (getRunningEmulators env.devicesRes).any (fun emu => emu.port == port) with
  | false =>
    have hla : launchApp env port pkg =
        (.error ("Failed to launch app: No emulator running on port " ++ port),
         [.adbDevices]) := by
      simp [launchApp, hany]
    refine ⟨fun _ => hla, ?_, ?_, ?_⟩
    · intro packages _ htrue _
      simp [hany] at htrue
    · rw [hla]
      simp [hany]
    · intro res h
      rw [hla] at h
      simp at h
  | true =>
    cases hpm : env.pmRes with
    | error m =>
      have hla : launchApp env port pkg =
          (.error ("Failed to launch app: " ++ m),
           [.adbDevices, .pmListPackages port pkg]) := by
        simp [launchApp, hany, hpm]
      refine ⟨fun hfalse => by simp [hany] at hfalse, ?_, ?_, ?_⟩
      · intro packages' hpk _ _
        exact Except.noConfusion hpk
      · rw [hla]
        simp [hpm]
      · intro res h
        rw [hla] at h
        simp at h
    | ok packages =>
      cases hinc : jsContainsStr packages pkg with
      | false =>
        have hla : launchApp env port pkg =
            (.error ("Failed to launch app: Package " ++ pkg ++
              " not found on emulator-" ++ port),
             [.adbDevices, .pmListPackages port pkg]) := by
          simp [launchApp, hany, hpm, hinc]
        refine ⟨fun hfalse => by simp [hany] at hfalse,
          fun packages' hpk _ _ => by
            cases hpk
            exact hla, ?_, ?_⟩
        · rw [hla]
          simp [hpm, hinc]
        · intro res h
          rw [hla] at h
          simp at h
      | true =>
        cases hres : env.resolveRes with
        | error m =>
          have hla : launchApp env port pkg =
              (.error ("Failed to launch app: " ++ m),
               [.adbDevices, .pmListPackages port pkg, .resolveActivity port pkg]) := by
            simp [launchApp, hany, hpm, hinc, hres]
          refine ⟨fun hfalse => by simp [hany] at hfalse,
            fun packages' hpk _ hfalse => by
              cases hpk
              simp [hinc] at hfalse, ?_, ?_⟩
          · rw [hla]
            simp [hres]
          · intro res h
            rw [hla] at h
            simp at h
        | ok activities =>
          cases hact : decide (jsTrimStr activities = "") with
          | true =>
            have hact' : jsTrimStr activities = "" := of_decide_eq_true hact
            have hla : launchApp env port pkg =
                (.error ("Failed to launch app: Could not find main activity for package " ++
                  pkg),
                 [.adbDevices, .pmListPackages port pkg, .resolveActivity port pkg]) := by
              simp [launchApp, hany, hpm, hinc, hres, hact']
            refine ⟨fun hfalse => by simp [hany] at hfalse,
              fun packages' hpk _ hfalse => by
                cases hpk
                simp [hinc] at hfalse, ?_, ?_⟩
            · rw [hla]
              simp [hres, hact']
            · intro res h
              rw [hla] at h
              simp at h
          | false =>
            have hact' : ¬ (jsTrimStr activities = "") := of_decide_eq_false hact
            cases hstart : env.startRes with
            | error m =>
              have hla : launchApp env port pkg =
                  (.error ("Failed to launch app: " ++ m),
                   [.adbDevices, .pmListPackages port pkg, .resolveActivity port pkg,
                    .amStart port (jsTrimStr activities)]) := by
                simp [launchApp, hany, hpm, hinc, hres, hact', hstart]
              refine ⟨fun hfalse => by simp [hany] at hfalse,
                fun packages' hpk _ hfalse => by
                  cases hpk
                  simp [hinc] at hfalse, ?_, ?_⟩
              · rw [hla]
                simp [hstart]
              · intro res h
                rw [hla] at h
                simp at h
            | ok r =>
              have hla : launchApp env port pkg =
                  (.ok ("Successfully launched " ++ pkg ++ " on emulator-" ++ port),
                   [.adbDevices, .pmListPackages port pkg, .resolveActivity port pkg,
                    .amStart port (jsTrimStr activities)]) := by
                simp [launchApp, hany, hpm, hinc, hres, hact', hstart]
              refine ⟨fun hfalse => by simp [hany] at hfalse,
                fun packages' hpk _ hfalse => by
                  cases hpk
                  simp [hinc] at hfalse, ?_, ?_⟩
              · rw [hla]
                simp [hpm, hinc, hres, hact', hstart]
              · intro res h
                exact ⟨jsTrimStr activities, by rw [hla]⟩

/-- Claim C1 witness: concrete environments exercising the not-running
failure, the package-missing failure, and the all-checks-pass success. -/
theorem launchApp_fail_fast_witness :
    launchApp ⟨.ok "List of devices attached\n", .ok "package:com.foo", .ok "x", .ok ""⟩
        "5554" "com.foo" =
      (.error ("Failed to launch app: No emulator running on port " ++ "5554"),
       [.adbDevices]) ∧
    launchApp ⟨.ok "List of devices attached\nemulator-5554\tdevice\n", .ok "package:other",
        .ok "x", .ok ""⟩ "5554" "com.foo" =
      (.error ("Failed to launch app: Package " ++ "com.foo" ++ " not found on emulator-" ++
        "5554"),
       [.adbDevices, .pmListPackages "5554" "com.foo"]) ∧
    (∃ res, (launchApp ⟨.ok "List of devices attached\nemulator-5554\tdevice\n",
        .ok "package:com.foo", .ok "com.foo/.MainActivity", .ok ""⟩ "5554" "com.foo").1 =
      .ok res) :=
  ⟨(launchApp_fail_fast ⟨.ok "List of devices attached\n", .ok "package:com.foo", .ok "x",
      .ok ""⟩ "5554" "com.foo").1 (by decide),
   (launchApp_fail_fast ⟨.ok "List of devices attached\nemulator-5554\tdevice\n",
      .ok "package:other", .ok "x", .ok ""⟩ "5554" "com.foo").2.1 "package:other" rfl
      (by decide) (by decide),
   (launchApp_fail_fast ⟨.ok "List of devices attached\nemulator-5554\tdevice\n",
      .ok "package:com.foo", .ok "com.foo/.MainActivity", .ok ""⟩ "5554" "com.foo").2.2.1.mpr
      ⟨by decide, ⟨"package:com.foo", rfl, by decide⟩,
       ⟨"com.foo/.MainActivity", rfl, by decide⟩, ⟨"", rfl⟩⟩⟩

/-! ### `toString` of a natural number never collides with a flag -/

theorem digitChar_ne_dash (m : Nat) : Nat.digitChar m ≠ '-' := by
  match m with
  | 0 | 1 | 2 | 3 | 4 | 5 | 6 | 7 | 8 | 9 | 10 | 11 | 12 | 13 | 14 | 15 => decide
  | n + 16 =>
    show Nat.digitChar (n + 16) ≠ '-'
    unfold Nat.digitChar
    repeat rw [if_neg (by omega)]
    decide

theorem toDigitsCore_chars (b : Nat) :
    ∀ (fuel n : Nat) (ds : List Char) (c : Char),
      c ∈ Nat.toDigitsCore b fuel n ds → c ∈ ds ∨ ∃ m, c = Nat.digitChar m := by
  intro fuel
  induction fuel with
  | zero => intro n ds c hc; exact Or.inl hc
  | succ f ih =>
    intro n ds c hc
    simp only [Nat.toDigitsCore] at hc
    by_cases hn : n / b = 0
    · rw [if_pos hn] at hc
      rcases List.mem_cons.mp hc with h | h
      · exact Or.inr ⟨n % b, h⟩
      · exact Or.inl h
    · rw [if_neg hn] at hc
      rcases ih (n / b) (Nat.digitChar (n % b) :: ds) c hc with h | h
      · rcases List.mem_cons.mp h with h' | h'
        · exact Or.inr ⟨n % b, h'⟩
        · exact Or.inl h'
      · exact Or.inr h

theorem toString_nat_no_dash (n : Nat) : '-' ∉ (toString n).data := by
  intro h
  have hdata : (toString n).data = Nat.toDigitsCore 10 (n + 1) n [] := rfl
  rw [hdata] at h
  rcases toDigitsCore_chars 10 (n + 1) n [] '-' h with h' | ⟨m, hm⟩
  · exact absurd h' (List.not_mem_nil '-')
  · exact digitChar_ne_dash m hm.symm

theorem toString_nat_ne_flag (n : Nat) (s : String) (hs : '-' ∈ s.data) :
    toString n ≠ s := by
  intro he
  apply toString_nat_no_dash n
  rw [he]
  exact hs

set_option maxHeartbeats 1000000 in
/-- Which strings appear in the built `emulatorArgs` list. -/
theorem mem_emulatorArgs_iff (args : StartEmulatorArgs) (x : String) :
    x ∈ emulatorArgs args ↔
      (x = "-avd" ∨ x = args.avd_name) ∨
      (args.cold_boot.getD false = true ∧ x = "-no-snapshot-load") ∨
      (args.wipe_data.getD false = true ∧ x = "-wipe-data") ∨
      (∃ g, args.gpu = some g ∧ g ≠ "" ∧ (x = "-gpu" ∨ x = g)) ∨
      (∃ n, args.port = some n ∧ n ≠ 0 ∧ (x = "-port" ∨ x = toString n)) := by
  rcases args with ⟨name, cb, wd, gpu, prt⟩
  cases gpu with
  | none =>
    cases prt with
    | none =>
      by_cases hcb : cb.getD false = true <;> by_cases hwd : wd.getD false = true <;>
        simp [emulatorArgs, List.mem_append, hcb, hwd] <;> tauto
    | some n =>
      by_cases hcb : cb.getD false = true <;> by_cases hwd : wd.getD false = true <;>
        by_cases hn : n = 0 <;>
        simp [emulatorArgs, List.mem_append, hcb, hwd, hn] <;> tauto
  | some g =>
    cases prt with
    | none =>
      by_cases hcb : cb.getD false = true <;> by_cases hwd : wd.getD false = true <;>
        by_cases hg : g = "" <;>
        simp [emulatorArgs, List.mem_append, hcb, hwd, hg] <;> tauto
    | some n =>
      by_cases hcb : cb.getD false = true <;> by_cases hwd : wd.getD false = true <;>
        by_cases hg : g = "" <;> by_cases hn : n = 0 <;>
        simp [emulatorArgs, List.mem_append, hcb, hwd, hg, hn] <;> tauto

/-- Claim C8 counterexample: with the port option present but equal to
`0`, no `-port` flag is emitted — JavaScript truthiness, not presence,
gates the conditional spreads — refuting the `iff the option is present`
claim. -/
theorem startEmulator_port_zero :
    ((⟨"Pixel_7", none, none, none, some 0⟩ : StartEmulatorArgs).port = some 0) ∧
    "-port" ∉ emulatorArgs ⟨"Pixel_7", none, none, none, some 0⟩ :=
  ⟨rfl, by decide⟩

/-- Claim C8 (amended): the argument list always starts with `-avd` and
the AVD name; `-no-snapshot-load` appears iff cold boot is requested,
`-wipe-data` iff data wipe is requested, `-gpu` (followed by the mode) iff
the gpu option is present *and truthy* (non-empty), and `-port` (followed
by the printed number) iff the port option is present *and truthy*
(non-zero); absent — or falsy — optional flags are never emitted. -/
theorem emulatorArgs_flags (args : StartEmulatorArgs)
    (hname : args.avd_name ∉ (["-no-snapshot-load", "-wipe-data", "-gpu", "-port"] : List String))
    (hgpu : ∀ g, args.gpu = some g →
      g ∉ (["-no-snapshot-load", "-wipe-data", "-gpu", "-port"] : List String)) :
    (emulatorArgs args).take 2 = ["-avd", args.avd_name] ∧
    ("-no-snapshot-load" ∈ emulatorArgs args ↔ args.cold_boot.getD false = true) ∧
    ("-wipe-data" ∈ emulatorArgs args ↔ args.wipe_data.getD false = true) ∧
    ("-gpu" ∈ emulatorArgs args ↔ ∃ g, args.gpu = some g ∧ g ≠ "") ∧
    ("-port" ∈ emulatorArgs args ↔ ∃ n, args.port = some n ∧ n ≠ 0) ∧
    (∀ g, args.gpu = some g → g ≠ "" →
      ∃ pre suf, emulatorArgs args = pre ++ "-gpu" :: g :: suf) ∧
    (∀ n, args.port = some n → n ≠ 0 →
      ∃ pre, emulatorArgs args = pre ++ ["-port", toString n]) := by
  have hn1 : ∀ n : Nat, toString n ≠ "-no-snapshot-load" :=
    fun n => toString_nat_ne_flag n _ (by decide)
  have hn2 : ∀ n : Nat, toString n ≠ "-wipe-data" :=
    fun n => toString_nat_ne_flag n _ (by decide)
  have hn3 : ∀ n : Nat, toString n ≠ "-gpu" :=
    fun n => toString_nat_ne_flag n _ (by decide)
  refine ⟨rfl, ?_, ?_, ?_, ?_, ?_, ?_⟩
  · rw [mem_emulatorArgs_iff]
    constructor
    · rintro ((h | h) | ⟨hc, _⟩ | ⟨_, h⟩ | ⟨g, hg, _, (h | h)⟩ | ⟨n, _, _, (h | h)⟩)
      · exact absurd h (by decide)
      · exact absurd (by simp [← h]) hname
      · exact hc
      · exact absurd h (by decide)
      · exact absurd h (by decide)
      · exact absurd (by simp [← h]) (hgpu g hg)
      · exact absurd h (by decide)
      · exact absurd h.symm (hn1 n)
    · intro hc
      exact Or.inr (Or.inl ⟨hc, rfl⟩)
  · rw [mem_emulatorArgs_iff]
    constructor
    · rintro ((h | h) | ⟨_, h⟩ | ⟨hw, _⟩ | ⟨g, hg, _, (h | h)⟩ | ⟨n, _, _, (h | h)⟩)
      · exact absurd h (by decide)
      · exact absurd (by simp [← h]) hname
      · exact absurd h (by decide)
      · exact hw
      · exact absurd h (by decide)
      · exact absurd (by simp [← h]) (hgpu g hg)
      · exact absurd h (by decide)
      · exact absurd h.symm (hn2 n)
    · intro hw
      exact Or.inr (Or.inr (Or.inl ⟨hw, rfl⟩))
  · rw [mem_emulatorArgs_iff]
    constructor
    · rintro ((h | h) | ⟨_, h⟩ | ⟨_, h⟩ | ⟨g, hg, hne, (h | h)⟩ | ⟨n, _, _, (h | h)⟩)
      · exact absurd h (by decide)
      · exact absurd (by simp [← h]) hname
      · exact absurd h (by decide)
      · exact absurd h (by decide)
      · exact ⟨g, hg, hne⟩
      · exact absurd (by simp [← h]) (hgpu g hg)
      · exact absurd h (by decide)
      · exact absurd h.symm (hn3 n)
    · rintro ⟨g, hg, hne⟩
      exact Or.inr (Or.inr (Or.inr (Or.inl ⟨g, hg, hne, Or.inl rfl⟩)))
  · rw [mem_emulatorArgs_iff]
    constructor
    · rintro ((h | h) | ⟨_, h⟩ | ⟨_, h⟩ | ⟨g, hg, _, (h | h)⟩ | ⟨n, hn, hne, (h | h)⟩)
      · exact absurd h (by decide)
      · exact absurd (by simp [← h]) hname
      · exact absurd h (by decide)
      · exact absurd h (by decide)
      · exact absurd h (by decide)
      · exact absurd (by simp [← h]) (hgpu g hg)
      · exact ⟨n, hn, hne⟩
      · exact absurd h.symm (toString_nat_ne_flag n _ (by decide))
    · rintro ⟨n, hn, hne⟩
      exact Or.inr (Or.inr (Or.inr (Or.inr ⟨n, hn, hne, Or.inl rfl⟩)))
  · intro g hg hne
    refine ⟨["-avd", args.avd_name] ++
      (if args.cold_boot.getD false then ["-no-snapshot-load"] else []) ++
      (if args.wipe_data.getD false then ["-wipe-data"] else []),
      (match args.port with
       | some n => if n = 0 then [] else ["-port", toString n]
       | none => []), ?_⟩
    simp [emulatorArgs, hg, hne, List.append_assoc]
  · intro n hn hne
    refine ⟨["-avd", args.avd_name] ++
      (if args.cold_boot.getD false then ["-no-snapshot-load"] else []) ++
      (if args.wipe_data.getD false then ["-wipe-data"] else []) ++
      (match args.gpu with
       | some g => if g = "" then [] else ["-gpu", g]
       | none => []), ?_⟩
    simp [emulatorArgs, hn, hne, List.append_assoc]

/-- Claim C8 (amended) witness: a fully-populated argument record. -/
theorem emulatorArgs_flags_witness :
    (emulatorArgs ⟨"Pixel_7", some true, none, some "host", some 5554⟩).take 2 =
      ["-avd", "Pixel_7"] ∧
    ("-port" ∈ emulatorArgs ⟨"Pixel_7", some true, none, some "host", some 5554⟩ ↔
      ∃ n, (⟨"Pixel_7", some true, none, some "host", some 5554⟩ :
        StartEmulatorArgs).port = some n ∧ n ≠ 0) :=
  have h := emulatorArgs_flags ⟨"Pixel_7", some true, none, some "host", some 5554⟩
    (by decide) (by intro g hg; cases hg; decide)
  ⟨h.1, h.2.2.2.2.1⟩

/-- Each line of the SDK table contributes at most one record. -/
theorem sdkStep_bound (acc : Bool × SDKList) (line : String) :
    (sdkStep acc line).2.installed.length + (sdkStep acc line).2.available.length ≤
      acc.2.installed.length + acc.2.available.length + 1 := by
  unfold sdkStep
  by_cases h1 : jsContainsStr line "Available Packages:" = true
  · simp [h1]
  · simp only [h1]
    by_cases h2 : (jsTrimStr line = "" || jsContainsStr line "---" ||
        jsContainsStr line "Path |") = true
    · simp [h2]
    · simp only [h2]
      cases hparts : sdkLineParts line with
      | nil => simp
      | cons p0 t =>
        cases t with
        | nil => simp
        | cons p1 rest =>
          by_cases hsec : acc.1 = true <;> simp [hsec] <;> omega

theorem sdkFold_bound :
    ∀ (lines : List String) (acc : Bool × SDKList),
      (lines.foldl sdkStep acc).2.installed.length +
        (lines.foldl sdkStep acc).2.available.length ≤
        acc.2.installed.length + acc.2.available.length + lines.length := by
  intro lines
  induction lines with
  | nil => intro acc; simp
  | cons line rest ih =>
    intro acc
    have h1 := ih (sdkStep acc line)
    have h2 := sdkStep_bound acc line
    simp only [List.foldl_cons, List.length_cons]
    omega

/-- Claim C4: both text parsers are total over arbitrary input: the block
parser never reaches its single unguarded access (the `Except` error) and
returns one record per block — including on the empty string and on
truncated blocks, where missing labels become `Unknown` placeholders — and
the table parser returns a pair of lists with at most one record per input
line (malformed lines are dropped). -/
theorem parsers_are_total (s : String) :
    (∃ l, getEmulatorsParse s = .ok l) ∧
    getEmulatorsParse "" = .ok [] ∧
    getEmulatorsParse "Name: X" = .ok [⟨"X", "Unknown", "Unknown", "Unknown"⟩] ∧
    getSDKListParse "" = ⟨[], []⟩ ∧
    (getSDKListParse s).installed.length + (getSDKListParse s).available.length ≤
      (jsSplitStr "\n" s).length := by
  refine ⟨?_, rfl, rfl, rfl, ?_⟩
  · obtain ⟨l, hl, _⟩ := getEmulatorsParse_ok s
    exact ⟨l, hl⟩
  · have h := sdkFold_bound (jsSplitStr "\n" s) (false, ⟨[], []⟩)
    simpa [getSDKListParse] using h

/-- Claim C6: on property text whose only line mentioning
`[ro.build.version.sdk]` is `[ro.build.version.sdk]: [34]` and with no line
mentioning `[ro.product.manufacturer]`, the device-info query succeeds with
`api_level = "34"` and `manufacturer = "Unknown"`; in general every
property whose bracketed key appears on no line independently resolves to
`"Unknown"` without failing the query. -/
theorem deviceInfo_defaults (port text : String)
    (hmem : "[ro.build.version.sdk]: [34]" ∈ jsSplitStr "\n" text)
    (huniq : ∀ l ∈ jsSplitStr "\n" text,
      jsContainsStr l "[ro.build.version.sdk]" = true → l = "[ro.build.version.sdk]: [34]")
    (hman : ∀ l ∈ jsSplitStr "\n" text,
      jsContainsStr l "[ro.product.manufacturer]" = false) :
    (∃ info, getEmulatorInfo port (.ok text) = .ok info ∧
      info.api_level = "34" ∧ info.manufacturer = "Unknown") ∧
    (∀ (lines : List String) (prop : String),
      (∀ l ∈ lines, jsContainsStr l ("[" ++ prop ++ "]") = false) →
      extractProperty lines prop = "Unknown") := by
  have hgen : ∀ (lines : List String) (prop : String),
      (∀ l ∈ lines, jsContainsStr l ("[" ++ prop ++ "]") = false) →
      extractProperty lines prop = "Unknown" := by
    intro lines prop h
    have hnone : lines.find? (fun l => jsContainsStr l ("[" ++ prop ++ "]")) = none :=
      List.find?_eq_none.mpr (fun x hx => by simp [h x hx])
    simp only [extractProperty, hnone]
  refine ⟨?_, hgen⟩
  have hfind : (jsSplitStr "\n" text).find?
      (fun l => jsContainsStr l ("[" ++ "ro.build.version.sdk" ++ "]")) =
      some "[ro.build.version.sdk]: [34]" := by
    have hx : ((jsSplitStr "\n" text).find?
        (fun l => jsContainsStr l ("[" ++ "ro.build.version.sdk" ++ "]"))).isSome :=
      List.find?_isSome.mpr ⟨_, hmem, by decide⟩
    obtain ⟨l', hl'⟩ := Option.isSome_iff_exists.mp hx
    rw [hl']
    have hmem' := List.mem_of_find?_eq_some hl'
    have hpl' : jsContainsStr l' ("[" ++ "ro.build.version.sdk" ++ "]") = true :=
      @List.find?_some String (fun l => jsContainsStr l ("[" ++ "ro.build.version.sdk" ++ "]"))
        l' (jsSplitStr "\n" text) hl'
    exact congrArg some (huniq l' hmem' hpl')
  have hapi : extractProperty (jsSplitStr "\n" text) "ro.build.version.sdk" = "34" := by
    simp only [extractProperty, hfind]
    rfl
  have hunk : extractProperty (jsSplitStr "\n" text) "ro.product.manufacturer" = "Unknown" :=
    hgen _ _ (fun l hl => hman l hl)
  exact ⟨_, rfl, hapi, hunk⟩

/-- Claim C6 witness: a concrete property dump with the sdk line present
and the manufacturer line absent. -/
theorem deviceInfo_defaults_witness :
    ∃ info,
      getEmulatorInfo "5554"
        (.ok "[ro.build.version.release]: [14]\n[ro.build.version.sdk]: [34]\n[ro.product.model]: [Pixel]") =
        .ok info ∧ info.api_level = "34" ∧ info.manufacturer = "Unknown" :=
  (deviceInfo_defaults "5554"
    "[ro.build.version.release]: [14]\n[ro.build.version.sdk]: [34]\n[ro.product.model]: [Pixel]"
    (by decide) (by decide) (by decide)).1

theorem breakOn_none_of_contains_false {s sub : String} (h : jsContainsStr s sub = false) :
    breakOn sub.data s.data = none := by
  unfold jsContainsStr jsContainsChars at h
  cases hb : breakOn sub.data s.data with
  | none => rfl
  | some pr => rw [hb] at h; simp at h

theorem jsSplit_block3 (x y z : JStr) (hx : '\n' ∉ x) (hy : '\n' ∉ y) (hz : '\n' ∉ z) :
    jsSplit ['\n'] (x ++ ("\n    Target: ".data ++ (y ++ ("\n    ABI: ".data ++ z)))) =
      [x, "    Target: ".data ++ y, "    ABI: ".data ++ z] := by
  have hb1 : breakOn ['\n'] (x ++ ("\n    Target: ".data ++ (y ++ ("\n    ABI: ".data ++ z)))) =
      some (x, "    Target: ".data ++ (y ++ ("\n    ABI: ".data ++ z))) := by
    have h := @breakOn_append_of_head ['\n'] '\n' rfl x
      ("    Target: ".data ++ (y ++ ("\n    ABI: ".data ++ z))) hx
    rw [List.append_assoc] at h
    exact h
  rw [jsSplit_cons (by decide) hb1]
  have hmem2 : '\n' ∉ "    Target: ".data ++ y := by
    intro hmem
    rcases List.mem_append.mp hmem with h | h
    · exact absurd h (by decide)
    · exact hy h
  have hb2 : breakOn ['\n'] ("    Target: ".data ++ (y ++ ("\n    ABI: ".data ++ z))) =
      some ("    Target: ".data ++ y, "    ABI: ".data ++ z) := by
    have h := @breakOn_append_of_head ['\n'] '\n' rfl ("    Target: ".data ++ y)
      ("    ABI: ".data ++ z) hmem2
    rw [List.append_assoc, List.append_assoc] at h
    exact h
  rw [jsSplit_cons (by decide) hb2]
  have hb3 : breakOn ['\n'] ("    ABI: ".data ++ z) = none := by
    apply breakOn_single_none
    intro hmem
    rcases List.mem_append.mp hmem with h | h
    · exact absurd h (by decide)
    · exact hz h
  rw [jsSplit_single hb3]

theorem jsSplit_block2 (x y : JStr) (hx : '\n' ∉ x) (hy : '\n' ∉ y) :
    jsSplit ['\n'] (x ++ ("\n    Target: ".data ++ y)) = [x, "    Target: ".data ++ y] := by
  have hb1 : breakOn ['\n'] (x ++ ("\n    Target: ".data ++ y)) =
      some (x, "    Target: ".data ++ y) := by
    have h := @breakOn_append_of_head ['\n'] '\n' rfl x ("    Target: ".data ++ y) hx
    rw [List.append_assoc] at h
    exact h
  rw [jsSplit_cons (by decide) hb1]
  have hb2 : breakOn ['\n'] ("    Target: ".data ++ y) = none := by
    apply breakOn_single_none
    intro hmem
    rcases List.mem_append.mp hmem with h | h
    · exact absurd h (by decide)
    · exact hy h
  rw [jsSplit_single hb2]

theorem breakOn_name_block3 (x y z : JStr)
    (hxn : breakOn "Name: ".data x = none)
    (hyn : breakOn "Name: ".data y = none)
    (hzn : breakOn "Name: ".data z = none) :
    breakOn "Name: ".data (x ++ ("\n    Target: ".data ++ (y ++ ("\n    ABI: ".data ++ z)))) =
      none := by
  have hz' : breakOn "Name: ".data ("\n    ABI: ".data ++ z) = none :=
    @breakOn_append_none "Name: ".data 'N' rfl "\n    ABI: ".data z (by decide) hzn
  have hy' : breakOn "Name: ".data (y ++ ("\n    ABI: ".data ++ z)) = none :=
    @breakOn_append_none_barrier "Name: ".data '\n' ("\n    ABI: ".data ++ z) rfl (by decide)
      y hyn hz'
  have ht' : breakOn "Name: ".data
      ("\n    Target: ".data ++ (y ++ ("\n    ABI: ".data ++ z))) = none :=
    @breakOn_append_none "Name: ".data 'N' rfl "\n    Target: ".data _ (by decide) hy'
  exact @breakOn_append_none_barrier "Name: ".data '\n'
    ("\n    Target: ".data ++ (y ++ ("\n    ABI: ".data ++ z))) rfl (by decide) x hxn ht'

theorem breakOn_name_block2 (x y : JStr)
    (hxn : breakOn "Name: ".data x = none)
    (hyn : breakOn "Name: ".data y = none) :
    breakOn "Name: ".data (x ++ ("\n    Target: ".data ++ y)) = none := by
  have hy' : breakOn "Name: ".data ("\n    Target: ".data ++ y) = none :=
    @breakOn_append_none "Name: ".data 'N' rfl "\n    Target: ".data y (by decide) hyn
  exact @breakOn_append_none_barrier "Name: ".data '\n' ("\n    Target: ".data ++ y) rfl
    (by decide) x hxn hy'



theorem target_split (Y : String) (hYt : jsContainsStr Y "Target: " = false) :
    jsSplitStr "Target: " ("    Target: " ++ Y) = ["    ", Y] := by
  show (jsSplit "Target: ".data ("    Target: " ++ Y).data).map String.mk = _
  rw [String.data_append]
  have hb : breakOn "Target: ".data ("    Target: ".data ++ Y.data) =
      some ("    ".data, Y.data) :=
    @breakOn_append_of_head "Target: ".data 'T' rfl "    ".data Y.data (by decide)
  rw [jsSplit_cons (by decide) hb, jsSplit_single (breakOn_none_of_contains_false hYt)]
  rfl

theorem abi_split (Z : String) (hZa : jsContainsStr Z "ABI: " = false) :
    jsSplitStr "ABI: " ("    ABI: " ++ Z) = ["    ", Z] := by
  show (jsSplit "ABI: ".data ("    ABI: " ++ Z).data).map String.mk = _
  rw [String.data_append]
  have hb : breakOn "ABI: ".data ("    ABI: ".data ++ Z.data) =
      some ("    ".data, Z.data) :=
    @breakOn_append_of_head "ABI: ".data 'A' rfl "    ".data Z.data (by decide)
  rw [jsSplit_cons (by decide) hb, jsSplit_single (breakOn_none_of_contains_false hZa)]
  rfl

theorem contains_target_line (Y : String) :
    jsContainsStr ("    Target: " ++ Y) "Target:" = true := by
  show (breakOn "Target:".data ("    Target: " ++ Y).data).isSome = true
  rw [String.data_append]
  have hb : breakOn "Target:".data ("    Target: ".data ++ Y.data) =
      some ("    ".data, ' ' :: Y.data) :=
    @breakOn_append_of_head "Target:".data 'T' rfl "    ".data (' ' :: Y.data) (by decide)
  rw [hb]
  rfl

theorem contains_abi_line (Z : String) :
    jsContainsStr ("    ABI: " ++ Z) "ABI:" = true := by
  show (breakOn "ABI:".data ("    ABI: " ++ Z).data).isSome = true
  rw [String.data_append]
  have hb : breakOn "ABI:".data ("    ABI: ".data ++ Z.data) =
      some ("    ".data, ' ' :: Z.data) :=
    @breakOn_append_of_head "ABI:".data 'A' rfl "    ".data (' ' :: Z.data) (by decide)
  rw [hb]
  rfl

theorem not_contains_abi_target_line (Y : String) (hYabi : jsContainsStr Y "ABI:" = false) :
    jsContainsStr ("    Target: " ++ Y) "ABI:" = false := by
  show (breakOn "ABI:".data ("    Target: " ++ Y).data).isSome = false
  rw [String.data_append]
  have hb : breakOn "ABI:".data ("    Target: ".data ++ Y.data) = none :=
    @breakOn_append_none "ABI:".data 'A' rfl "    Target: ".data Y.data (by decide)
      (breakOn_none_of_contains_false hYabi)
  rw [hb]
  rfl

theorem parseAvdBlock_wf3 (B X Y Z : String)
    (hXtarget : jsContainsStr X "Target:" = false)
    (hXabi : jsContainsStr X "ABI:" = false)
    (hYtarget : jsContainsStr Y "Target: " = false)
    (hYabi : jsContainsStr Y "ABI:" = false)
    (hZabi : jsContainsStr Z "ABI: " = false)
    (hXtrim : jsTrimStr X = X) (hYtrim : jsTrimStr Y = Y) (hYne : Y ≠ "")
    (hZtrim : jsTrimStr Z = Z) (hZne : Z ≠ "")
    (hlines : jsSplitStr "\n" B = [X, "    Target: " ++ Y, "    ABI: " ++ Z]) :
    parseAvdBlock B = .ok ⟨X, Y, Y, Z⟩ := by
  simp only [parseAvdBlock, hlines, List.head?_cons]
  rw [@List.find?_cons_of_neg String (fun l => jsContainsStr l "Target:") X
        ["    Target: " ++ Y, "    ABI: " ++ Z] (by simp [hXtarget]),
      @List.find?_cons_of_pos String (fun l => jsContainsStr l "Target:")
        ("    Target: " ++ Y) ["    ABI: " ++ Z] (contains_target_line Y)]
  rw [@List.find?_cons_of_neg String (fun l => jsContainsStr l "ABI:") X
        ["    Target: " ++ Y, "    ABI: " ++ Z] (by simp [hXabi]),
      @List.find?_cons_of_neg String (fun l => jsContainsStr l "ABI:")
        ("    Target: " ++ Y) ["    ABI: " ++ Z]
        (by simp [not_contains_abi_target_line Y hYabi]),
      @List.find?_cons_of_pos String (fun l => jsContainsStr l "ABI:")
        ("    ABI: " ++ Z) [] (contains_abi_line Z)]
  simp only [target_split Y hYtarget, abi_split Z hZabi]
  simp [hXtrim, hYtrim, hZtrim, hYne, hZne]



theorem parseAvdBlock_wf2 (B X Y : String)
    (hXtarget : jsContainsStr X "Target:" = false)
    (hXabi : jsContainsStr X "ABI:" = false)
    (hYtarget : jsContainsStr Y "Target: " = false)
    (hYabi : jsContainsStr Y "ABI:" = false)
    (hXtrim : jsTrimStr X = X) (hYtrim : jsTrimStr Y = Y) (hYne : Y ≠ "")
    (hlines : jsSplitStr "\n" B = [X, "    Target: " ++ Y]) :
    parseAvdBlock B = .ok ⟨X, Y, Y, "Unknown"⟩ := by
  simp only [parseAvdBlock, hlines, List.head?_cons]
  rw [@List.find?_cons_of_neg String (fun l => jsContainsStr l "Target:") X
        ["    Target: " ++ Y] (by simp [hXtarget]),
      @List.find?_cons_of_pos String (fun l => jsContainsStr l "Target:")
        ("    Target: " ++ Y) [] (contains_target_line Y)]
  rw [@List.find?_cons_of_neg String (fun l => jsContainsStr l "ABI:") X
        ["    Target: " ++ Y] (by simp [hXabi]),
      @List.find?_cons_of_neg String (fun l => jsContainsStr l "ABI:")
        ("    Target: " ++ Y) [] (by simp [not_contains_abi_target_line Y hYabi])]
  simp only [target_split Y hYtarget]
  simp [hXtrim, hYtrim, hYne, List.find?_nil]

/-- Claim C5: for every well-formed block `Name: X\n    Target: Y\n    ABI: Z`
(labels on their own indented lines, field values free of newlines and of
the label tokens, already trimmed, and non-empty), the block parser
extracts exactly the record `{name := X, target := Y, sdk := Y, abi := Z}`
with `sdk` duplicating `target`; for the same block without the `ABI:`
line, `abi` resolves to `Unknown` while `name` and `target` are still
extracted correctly. -/
theorem avd_block_parse (X Y Z : String)
    (hXnl : '\n' ∉ X.data) (hYnl : '\n' ∉ Y.data) (hZnl : '\n' ∉ Z.data)
    (hXname : jsContainsStr X "Name: " = false)
    (hYname : jsContainsStr Y "Name: " = false)
    (hZname : jsContainsStr Z "Name: " = false)
    (hXtarget : jsContainsStr X "Target:" = false)
    (hXabi : jsContainsStr X "ABI:" = false)
    (hYtarget : jsContainsStr Y "Target: " = false)
    (hYabi : jsContainsStr Y "ABI:" = false)
    (hZabi : jsContainsStr Z "ABI: " = false)
    (hXtrim : jsTrimStr X = X)
    (hYtrim : jsTrimStr Y = Y) (hYne : Y ≠ "")
    (hZtrim : jsTrimStr Z = Z) (hZne : Z ≠ "") :
    getEmulatorsParse ("Name: " ++ X ++ "\n    Target: " ++ Y ++ "\n    ABI: " ++ Z) =
      .ok [⟨X, Y, Y, Z⟩] ∧
    getEmulatorsParse ("Name: " ++ X ++ "\n    Target: " ++ Y) =
      .ok [⟨X, Y, Y, "Unknown"⟩] := by
  constructor
  · have hs : ("Name: " ++ X ++ "\n    Target: " ++ Y ++ "\n    ABI: " ++ Z).data =
        "Name: ".data ++
          (X.data ++ ("\n    Target: ".data ++ (Y.data ++ ("\n    ABI: ".data ++ Z.data)))) := by
      simp [String.data_append, List.append_assoc]
    have hb0 : breakOn "Name: ".data
        ("Name: " ++ X ++ "\n    Target: " ++ Y ++ "\n    ABI: " ++ Z).data =
        some ([], X.data ++ ("\n    Target: ".data ++ (Y.data ++ ("\n    ABI: ".data ++ Z.data)))) := by
      rw [hs]
      exact @breakOn_append_of_head "Name: ".data 'N' rfl []
        (X.data ++ ("\n    Target: ".data ++ (Y.data ++ ("\n    ABI: ".data ++ Z.data))))
        (by simp)
    have hrest : breakOn "Name: ".data
        (X.data ++ ("\n    Target: ".data ++ (Y.data ++ ("\n    ABI: ".data ++ Z.data)))) =
        none :=
      breakOn_name_block3 X.data Y.data Z.data (breakOn_none_of_contains_false hXname)
        (breakOn_none_of_contains_false hYname) (breakOn_none_of_contains_false hZname)
    have hsplit : jsSplitStr "Name: "
        ("Name: " ++ X ++ "\n    Target: " ++ Y ++ "\n    ABI: " ++ Z) =
        ["", String.mk
          (X.data ++ ("\n    Target: ".data ++ (Y.data ++ ("\n    ABI: ".data ++ Z.data))))] := by
      show (jsSplit "Name: ".data
        ("Name: " ++ X ++ "\n    Target: " ++ Y ++ "\n    ABI: " ++ Z).data).map String.mk = _
      rw [jsSplit_cons (by decide) hb0, jsSplit_single hrest]
      rfl
    have hlines : jsSplitStr "\n" (String.mk
        (X.data ++ ("\n    Target: ".data ++ (Y.data ++ ("\n    ABI: ".data ++ Z.data))))) =
        [X, "    Target: " ++ Y, "    ABI: " ++ Z] := by
      show (jsSplit ['\n']
        (X.data ++ ("\n    Target: ".data ++ (Y.data ++ ("\n    ABI: ".data ++ Z.data))))).map
          String.mk = _
      rw [jsSplit_block3 X.data Y.data Z.data hXnl hYnl hZnl]
      simp only [List.map]
      rw [← String.data_append, ← String.data_append]
    have hparse := parseAvdBlock_wf3 _ X Y Z hXtarget hXabi hYtarget hYabi hZabi hXtrim
      hYtrim hYne hZtrim hZne hlines
    unfold getEmulatorsParse
    rw [hsplit]
    show ([String.mk
      (X.data ++ ("\n    Target: ".data ++ (Y.data ++ ("\n    ABI: ".data ++ Z.data))))].mapM
        parseAvdBlock) = _
    rw [List.mapM_cons, hparse, List.mapM_nil]
    rfl
  · have hs : ("Name: " ++ X ++ "\n    Target: " ++ Y).data =
        "Name: ".data ++ (X.data ++ ("\n    Target: ".data ++ Y.data)) := by
      simp [String.data_append, List.append_assoc]
    have hb0 : breakOn "Name: ".data ("Name: " ++ X ++ "\n    Target: " ++ Y).data =
        some ([], X.data ++ ("\n    Target: ".data ++ Y.data)) := by
      rw [hs]
      exact @breakOn_append_of_head "Name: ".data 'N' rfl []
        (X.data ++ ("\n    Target: ".data ++ Y.data)) (by simp)
    have hrest : breakOn "Name: ".data (X.data ++ ("\n    Target: ".data ++ Y.data)) = none :=
      breakOn_name_block2 X.data Y.data (breakOn_none_of_contains_false hXname)
        (breakOn_none_of_contains_false hYname)
    have hsplit : jsSplitStr "Name: " ("Name: " ++ X ++ "\n    Target: " ++ Y) =
        ["", String.mk (X.data ++ ("\n    Target: ".data ++ Y.data))] := by
      show (jsSplit "Name: ".data ("Name: " ++ X ++ "\n    Target: " ++ Y).data).map
        String.mk = _
      rw [jsSplit_cons (by decide) hb0, jsSplit_single hrest]
      rfl
    have hlines : jsSplitStr "\n" (String.mk (X.data ++ ("\n    Target: ".data ++ Y.data))) =
        [X, "    Target: " ++ Y] := by
      show (jsSplit ['\n'] (X.data ++ ("\n    Target: ".data ++ Y.data))).map String.mk = _
      rw [jsSplit_block2 X.data Y.data hXnl hYnl]
      simp only [List.map]
      rw [← String.data_append]
    have hparse := parseAvdBlock_wf2 _ X Y hXtarget hXabi hYtarget hYabi hXtrim hYtrim hYne
      hlines
    unfold getEmulatorsParse
    rw [hsplit]
    show ([String.mk (X.data ++ ("\n    Target: ".data ++ Y.data))].mapM parseAvdBlock) = _
    rw [List.mapM_cons, hparse, List.mapM_nil]
    rfl

/-- Claim C5 witness: a concrete well-formed listing block. -/
theorem avd_block_parse_witness :
    getEmulatorsParse ("Name: " ++ "Pixel_7" ++ "\n    Target: " ++ "Android 14" ++
        "\n    ABI: " ++ "arm64-v8a") =
      .ok [⟨"Pixel_7", "Android 14", "Android 14", "arm64-v8a"⟩] ∧
    getEmulatorsParse ("Name: " ++ "Pixel_7" ++ "\n    Target: " ++ "Android 14") =
      .ok [⟨"Pixel_7", "Android 14", "Android 14", "Unknown"⟩] :=
  avd_block_parse "Pixel_7" "Android 14" "arm64-v8a" (by decide) (by decide) (by decide)
    (by decide) (by decide) (by decide) (by decide) (by decide) (by decide) (by decide)
    (by decide) (by decide) (by decide) (by decide) (by decide) (by decide)

end AndroidMcp
